import Mathlib

/-!
Verification development for the blockchain MCP tool server
(`schemas.ts`/`client.ts`, `toolHandlers.ts`, `index.ts`).

The development shallowly embeds the data model and the tool handlers.
Pure helpers of the external `viem` library that the handlers rely on
(`formatUnits`, `formatEther`, `parseUnits`, `parseEther`,
`privateKeyToAccount`) are modelled here from their published sources,
restricted where noted.  Chain interaction (the JSON-RPC node) is an
external collaborator and is modelled as an oracle record; every handler
additionally reports the ordered list of chain interactions it performed,
so that claims about "no RPC call happens before the failure" are statable.
-/

/-! ## Decimal digit-list machinery

`viem`'s `formatUnits`/`parseUnits` manipulate decimal digit strings.
We work with digit lists (most-significant digit first) and connect them
to characters only at the boundary. -/

/-- Value of a most-significant-first digit list, e.g. `[1,5,0] ↦ 150`. -/
def valMSD (ds : List Nat) : Nat :=
  ds.foldl (fun a d => 10 * a + d) 0

/-- Value of a least-significant-first digit list. -/
def valLSD (ds : List Nat) : Nat :=
  ds.foldr (fun d a => d + 10 * a) 0

/-- Least-significant-first decimal digits of `n`; `fuel` bounds recursion. -/
def natDigitsRev : Nat → Nat → List Nat
  | 0, _ => []
  | fuel + 1, n => if n = 0 then [] else n % 10 :: natDigitsRev fuel (n / 10)

/-- Most-significant-first decimal digits of `n` (with `[0]` for zero),
mirroring JavaScript `BigInt.prototype.toString`. -/
def natToDigits (n : Nat) : List Nat :=
  if n = 0 then [0] else (natDigitsRev n n).reverse

theorem valMSD_foldl_acc (l : List Nat) (a : Nat) :
    l.foldl (fun a d => 10 * a + d) a = a * 10 ^ l.length + valMSD l := by
  induction l generalizing a with
  | nil => simp [valMSD]
  | cons d t ih =>
    simp only [List.foldl_cons, List.length_cons, valMSD, Nat.mul_zero, Nat.zero_add]
    rw [ih (10 * a + d), ih d]
    ring

theorem valMSD_append (a b : List Nat) :
    valMSD (a ++ b) = valMSD a * 10 ^ b.length + valMSD b := by
  simp only [valMSD, List.foldl_append]
  rw [valMSD_foldl_acc]
  rfl

theorem valMSD_replicate_zero (k : Nat) : valMSD (List.replicate k 0) = 0 := by
  induction k with
  | zero => rfl
  | succ n ih =>
    have : List.replicate (n + 1) 0 = 0 :: List.replicate n 0 := rfl
    simp only [this, valMSD, List.foldl_cons] at *
    simpa using ih

theorem valMSD_reverse (l : List Nat) : valMSD l.reverse = valLSD l := by
  induction l with
  | nil => rfl
  | cons d t ih =>
    simp only [List.reverse_cons, valLSD, List.foldr_cons]
    rw [valMSD_append, ih]
    simp [valMSD, valLSD]
    ring

theorem valLSD_natDigitsRev (fuel n : Nat) (h : n ≤ fuel) :
    valLSD (natDigitsRev fuel n) = n := by
  induction fuel generalizing n with
  | zero => simp_all [natDigitsRev, valLSD]
  | succ f ih =>
    by_cases hn : n = 0
    · simp [natDigitsRev, hn, valLSD]
    · have hdiv : n / 10 ≤ f := by
        have h1 : n / 10 < n := Nat.div_lt_self (Nat.pos_of_ne_zero hn) (by norm_num)
        omega
      simp only [natDigitsRev, hn, if_false, valLSD, List.foldr_cons]
      have := ih (n / 10) hdiv
      simp only [valLSD] at this
      rw [this]
      omega

theorem valMSD_natToDigits (n : Nat) : valMSD (natToDigits n) = n := by
  by_cases hn : n = 0
  · simp [natToDigits, hn, valMSD]
  · simp only [natToDigits, hn, if_false]
    rw [valMSD_reverse, valLSD_natDigitsRev n n le_rfl]

theorem natDigitsRev_lt_ten (fuel n : Nat) : ∀ d ∈ natDigitsRev fuel n, d < 10 := by
  induction fuel generalizing n with
  | zero => simp [natDigitsRev]
  | succ f ih =>
    intro d hd
    by_cases hn : n = 0
    · simp [natDigitsRev, hn] at hd
    · simp only [natDigitsRev, hn, if_false, List.mem_cons] at hd
      rcases hd with h | h
      · subst h; exact Nat.mod_lt _ (by norm_num)
      · exact ih _ d h

theorem natToDigits_lt_ten (n : Nat) : ∀ d ∈ natToDigits n, d < 10 := by
  intro d hd
  by_cases hn : n = 0
  · simp [natToDigits, hn] at hd; omega
  · simp only [natToDigits, hn, if_false, List.mem_reverse] at hd
    exact natDigitsRev_lt_ten n n d hd

theorem natToDigits_ne_nil (n : Nat) : natToDigits n ≠ [] := by
  by_cases hn : n = 0
  · simp [natToDigits, hn]
  · simp only [natToDigits, hn, if_false]
    intro hcon
    have := valMSD_natToDigits n
    simp only [natToDigits, hn, if_false] at this
    rw [hcon] at this
    simp [valMSD] at this
    exact hn this.symm

/-- Strip trailing zero digits, as `fraction.replace(/(0+)$/, '')` does. -/
def dropTrailingZeros (l : List Nat) : List Nat :=
  (l.reverse.dropWhile (fun d => d == 0)).reverse

theorem dropTrailingZeros_spec (l : List Nat) :
    l = dropTrailingZeros l ++
        List.replicate (l.length - (dropTrailingZeros l).length) 0 := by
  have hsplit := List.takeWhile_append_dropWhile (p := fun d : Nat => d == 0) (l := l.reverse)
  have htake : l.reverse.takeWhile (fun d => d == 0) =
      List.replicate (l.reverse.takeWhile (fun d => d == 0)).length 0 := by
    rw [List.eq_replicate_length]
    intro b hb
    have := List.mem_takeWhile_imp hb
    simpa using this
  have hlrev : l = (l.reverse.dropWhile (fun d => d == 0)).reverse ++
      (l.reverse.takeWhile (fun d => d == 0)).reverse := by
    conv_lhs => rw [← List.reverse_reverse l, ← hsplit]
    rw [List.reverse_append]
  have hlen : (l.reverse.takeWhile (fun d => d == 0)).length =
      l.length - (dropTrailingZeros l).length := by
    have h1 : l.length = (l.reverse.takeWhile (fun d => d == 0)).length +
        (l.reverse.dropWhile (fun d => d == 0)).length := by
      conv_lhs => rw [← List.length_reverse, ← hsplit]
      rw [List.length_append]
    simp only [dropTrailingZeros, List.length_reverse]
    omega
  nth_rewrite 1 [hlrev]
  rw [htake, List.reverse_replicate, hlen]
  rfl

theorem dropTrailingZeros_length_le (l : List Nat) :
    (dropTrailingZeros l).length ≤ l.length := by
  simp only [dropTrailingZeros, List.length_reverse]
  have := (List.dropWhile_sublist (p := fun d : Nat => d == 0) (l := l.reverse)).length_le
  simpa using this

theorem valMSD_dropTrailingZeros (l : List Nat) :
    valMSD l = valMSD (dropTrailingZeros l) *
        10 ^ (l.length - (dropTrailingZeros l).length) := by
  conv_lhs => rw [dropTrailingZeros_spec l]
  rw [valMSD_append, valMSD_replicate_zero, List.length_replicate]
  omega

theorem dropTrailingZeros_mem (l : List Nat) :
    ∀ d ∈ dropTrailingZeros l, d ∈ l := by
  intro d hd
  simp only [dropTrailingZeros, List.mem_reverse] at hd
  have := List.dropWhile_sublist (p := fun d : Nat => d == 0) (l := l.reverse)
  have hmem := this.mem hd
  simpa using hmem

example : natToDigits 150 = [1, 5, 0] := by decide
example : dropTrailingZeros [1, 5, 0] = [1, 5] := by decide
example : valMSD [1, 5, 0] = 150 := by decide

/-! ## Characters and decimal strings -/

/-- Character for a decimal digit (`0 ↦ '0'`, …). -/
def digitChar (d : Nat) : Char := Char.ofNat (48 + d)

/-- Decimal digit denoted by a character, if any. -/
def charDigit (c : Char) : Option Nat :=
  if 48 ≤ c.toNat ∧ c.toNat ≤ 57 then some (c.toNat - 48) else none

/-- All-digit reading of a character list. -/
def charsToDigits : List Char → Option (List Nat)
  | [] => some []
  | c :: cs =>
    match charDigit c, charsToDigits cs with
    | some d, some ds => some (d :: ds)
    | _, _ => none

theorem charDigit_digitChar {d : Nat} (h : d < 10) : charDigit (digitChar d) = some d := by
  interval_cases d <;> decide

theorem digitChar_ne_dot {d : Nat} (h : d < 10) : digitChar d ≠ '.' := by
  interval_cases d <;> decide

theorem digitChar_ne_minus {d : Nat} (h : d < 10) : digitChar d ≠ '-' := by
  interval_cases d <;> decide

theorem charsToDigits_map_digitChar (ds : List Nat) (h : ∀ d ∈ ds, d < 10) :
    charsToDigits (ds.map digitChar) = some ds := by
  induction ds with
  | nil => rfl
  | cons d t ih =>
    have hd : d < 10 := h d (by simp)
    have ht : ∀ x ∈ t, x < 10 := fun x hx => h x (by simp [hx])
    simp only [List.map_cons, charsToDigits, charDigit_digitChar hd, ih ht]


/-- Shape of a decimal numeral: optional minus sign, integer digits,
optional dot followed by fraction digits.  This is the shape accepted by
viem's numeral handling (`/^(-?)([0-9]*)\.?([0-9]*)$/`); other strings
make `parseUnits` raise `InvalidDecimalNumberError` (modelled as `none`). -/
def parseDecShape (l : List Char) : Option (Bool × List Nat × List Nat) :=
  let neg : Bool := l.head? == some '-'
  let l1 := if neg then l.tail else l
  let ip := l1.takeWhile (fun c => c != '.')
  let rest := l1.dropWhile (fun c => c != '.')
  match charsToDigits ip with
  | none => none
  | some ds =>
    if rest = [] then some (neg, ds, [])
    else (charsToDigits rest.tail).map fun fs => (neg, ds, fs)

/-- Exact rational value denoted by a decimal numeral string (the
specification-side denotation used to state exactness claims). -/
def decValue (s : String) : Option ℚ :=
  (parseDecShape s.data).map fun (neg, ds, fs) =>
    (if neg then -1 else 1) *
      ((valMSD ds : ℚ) + (valMSD fs : ℚ) / 10 ^ fs.length)

/-- Pad a digit list on the left with zeros to length at least `n`
(JavaScript `padStart(n, '0')`). -/
def padStartZeros (l : List Nat) (n : Nat) : List Nat :=
  List.replicate (n - l.length) 0 ++ l

/-- The `display` string of viem `formatUnits`: the value rendered and
left-padded with zeros to at least `decimals` digits. -/
def formatDisplay (value decimals : Nat) : List Nat :=
  padStartZeros (natToDigits value) decimals

/-- The integer part of viem `formatUnits`:
`display.slice(0, display.length - decimals)`. -/
def formatIntDigits (value decimals : Nat) : List Nat :=
  (formatDisplay value decimals).take ((formatDisplay value decimals).length - decimals)

/-- The fraction part of viem `formatUnits`:
`display.slice(display.length - decimals)` with trailing zeros trimmed. -/
def formatFracDigits (value decimals : Nat) : List Nat :=
  dropTrailingZeros ((formatDisplay value decimals).drop
    ((formatDisplay value decimals).length - decimals))

/-- Model of viem `formatUnits` on a non-negative value: render the value,
left-pad to `decimals` digits, split into integer and fraction parts, trim
the fraction's trailing zeros, and print `integer || '0'` followed by
`'.' + fraction` when the fraction is non-empty. -/
def formatUnitsNat (value decimals : Nat) : String :=
  let integer := formatIntDigits value decimals
  let fraction := formatFracDigits value decimals
  String.mk ((if integer.isEmpty then [0].map digitChar else integer.map digitChar) ++
    (if fraction.isEmpty then [] else '.' :: fraction.map digitChar))

/-- Model of viem `formatUnits`: negative values render their absolute
value behind a minus sign (viem strips the sign first and re-attaches it). -/
def formatUnits (value : Int) (decimals : Nat) : String :=
  (if value < 0 then "-" else "") ++ formatUnitsNat value.natAbs decimals

/-- Model of viem `formatEther`: `formatUnits` with 18 decimals. -/
def formatEther (value : Int) : String := formatUnits value 18

/-- Decimal rendering of a `BigInt` value (`value.toString()`),
non-negative case. -/
def natToDecString (n : Nat) : String :=
  String.mk ((natToDigits n).map digitChar)

/-- Does the digit fraction `f`, read as `0.f`, round up half-up?
Models `Math.round(Number('.' + f)) === 1` / the carry in
`Math.round(Number(unit + '.' + right))`.  (For the 16-plus-digit
fractions where IEEE-754 reading in `Number` deviates from exact half-up
the model keeps exact half-up; the theorems below never evaluate the
function on such inputs.)  An empty `f` reads as `NaN` and never carries;
the arithmetic test is already false there. -/
def roundsUpHalf (f : List Nat) : Bool :=
  decide (10 ^ f.length ≤ 2 * valMSD f)

/-- Model of viem `parseUnits`: convert a human-readable decimal numeral
to the integer number of smallest units with `decimals` fraction digits.
Follows viem's branch structure: trim trailing fraction zeros; at
`decimals = 0` round the whole fraction; when more fraction digits than
`decimals` remain, round half-up at position `decimals` with digit-string
carry handling; otherwise right-pad the fraction.  Final
`BigInt(integer ++ fraction)` concatenation is rendered positionally. -/
def parseUnits (value : String) (decimals : Nat) : Option Int :=
  (parseDecShape value.data).map fun (neg, intDs, fracDs0) =>
    let fraction := dropTrailingZeros fracDs0
    let signed : Nat → Int := fun n => if neg then -(n : Int) else (n : Int)
    if decimals = 0 then
      signed (valMSD intDs + (if roundsUpHalf fraction then 1 else 0))
    else if decimals < fraction.length then
      let left := fraction.take (decimals - 1)
      let unitD := (fraction.get? (decimals - 1)).getD 0
      let right := fraction.drop decimals
      let rounded := unitD + (if roundsUpHalf right then 1 else 0)
      let fraction1 :=
        if 9 < rounded then padStartZeros (natToDigits (valMSD left + 1) ++ [0]) (left.length + 1)
        else left ++ [rounded]
      let carried := decimals < fraction1.length
      let fraction2 := if carried then fraction1.tail else fraction1
      let intVal := valMSD intDs + (if carried then 1 else 0)
      let finalFrac := fraction2.take decimals
      signed (intVal * 10 ^ finalFrac.length + valMSD finalFrac)
    else
      let padded := fraction ++ List.replicate (decimals - fraction.length) 0
      signed (valMSD intDs * 10 ^ padded.length + valMSD padded)

/-- Model of viem `parseEther`: `parseUnits` with 18 decimals. -/
def parseEther (value : String) : Option Int := parseUnits value 18

example : parseUnits "1.5" 6 = some 1500000 := by decide
example : parseUnits "0" 7 = some 0 := by decide
example : parseUnits "-1.50" 2 = some (-150) := by decide
example : parseUnits "1.2345" 2 = some 123 := by decide
example : parseUnits "1.995" 2 = some 200 := by decide
example : formatUnits 1500000 6 = "1.5" := by decide
example : formatUnits (10000 * 10 ^ 18) 18 = "10000" := by decide
example : formatUnits (-150) 2 = "-1.5" := by decide
example : parseDecShape "-1.25".data = some (true, [1], [2, 5]) := by decide
example : natToDecString 1500000 = "1500000" := by decide

/-! ## Exactness of `formatUnits` -/

theorem takeWhile_neDot_append (A B : List Char) (hA : ∀ c ∈ A, c ≠ '.') :
    (A ++ '.' :: B).takeWhile (fun c => c != '.') = A ∧
    (A ++ '.' :: B).dropWhile (fun c => c != '.') = '.' :: B := by
  induction A with
  | nil => simp [List.takeWhile_cons, List.dropWhile_cons]
  | cons c t ih =>
    have hc : (c != '.') = true := by
      simpa using hA c (by simp)
    have ht := ih (fun x hx => hA x (by simp [hx]))
    simp [List.takeWhile_cons, List.dropWhile_cons, hc, ht.1, ht.2]

theorem takeWhile_neDot_all (A : List Char) (hA : ∀ c ∈ A, c ≠ '.') :
    A.takeWhile (fun c => c != '.') = A ∧
    A.dropWhile (fun c => c != '.') = [] := by
  induction A with
  | nil => simp
  | cons c t ih =>
    have hc : (c != '.') = true := by
      simpa using hA c (by simp)
    have ht := ih (fun x hx => hA x (by simp [hx]))
    simp [List.takeWhile_cons, List.dropWhile_cons, hc, ht.1, ht.2]

theorem map_digitChar_ne_dot (ds : List Nat) (h : ∀ d ∈ ds, d < 10) :
    ∀ c ∈ ds.map digitChar, c ≠ '.' := by
  intro c hc
  simp only [List.mem_map] at hc
  obtain ⟨d, hd, rfl⟩ := hc
  exact digitChar_ne_dot (h d hd)

theorem parseDecShape_render_nofrac (i : List Nat) (hi : ∀ d ∈ i, d < 10)
    (hne : i ≠ []) : parseDecShape (i.map digitChar) = some (false, i, []) := by
  obtain ⟨d0, t, rfl⟩ := List.exists_cons_of_ne_nil hne
  have hd0 : d0 < 10 := hi d0 (by simp)
  have hhead : (((d0 :: t).map digitChar).head? == some '-') = false := by
    simp [digitChar_ne_minus hd0]
  have htw := takeWhile_neDot_all ((d0 :: t).map digitChar)
    (map_digitChar_ne_dot _ hi)
  simp only [parseDecShape, hhead, if_false, Bool.false_eq_true, htw.1, htw.2]
  rw [charsToDigits_map_digitChar _ hi]
  simp

theorem parseDecShape_render_frac (i f : List Nat) (hi : ∀ d ∈ i, d < 10)
    (hf : ∀ d ∈ f, d < 10) (hne : i ≠ []) :
    parseDecShape (i.map digitChar ++ '.' :: f.map digitChar) =
      some (false, i, f) := by
  obtain ⟨d0, t, rfl⟩ := List.exists_cons_of_ne_nil hne
  have hd0 : d0 < 10 := hi d0 (by simp)
  have hhead : ((((d0 :: t).map digitChar ++ '.' :: f.map digitChar)).head? == some '-') = false := by
    simp [digitChar_ne_minus hd0]
  have htw := takeWhile_neDot_append ((d0 :: t).map digitChar) (f.map digitChar)
    (map_digitChar_ne_dot _ hi)
  simp only [parseDecShape, hhead, if_false, Bool.false_eq_true, htw.1, htw.2]
  rw [charsToDigits_map_digitChar _ hi]
  simp [charsToDigits_map_digitChar _ hf]


theorem padStartZeros_length (l : List Nat) (n : Nat) :
    (padStartZeros l n).length = max n l.length := by
  simp [padStartZeros]
  omega

theorem valMSD_padStartZeros (l : List Nat) (n : Nat) :
    valMSD (padStartZeros l n) = valMSD l := by
  simp [padStartZeros, valMSD_append, valMSD_replicate_zero]

theorem padStartZeros_lt_ten (l : List Nat) (n : Nat) (h : ∀ d ∈ l, d < 10) :
    ∀ d ∈ padStartZeros l n, d < 10 := by
  intro d hd
  simp only [padStartZeros, List.mem_append, List.mem_replicate] at hd
  rcases hd with h0 | hl
  · omega
  · exact h d hl

theorem formatDisplay_lt_ten (v d : Nat) : ∀ x ∈ formatDisplay v d, x < 10 :=
  padStartZeros_lt_ten _ _ (natToDigits_lt_ten v)

theorem formatIntDigits_lt_ten (v d : Nat) : ∀ x ∈ formatIntDigits v d, x < 10 :=
  fun x hx => formatDisplay_lt_ten v d x (List.mem_of_mem_take hx)

theorem formatFracDigits_lt_ten (v d : Nat) : ∀ x ∈ formatFracDigits v d, x < 10 :=
  fun x hx => formatDisplay_lt_ten v d x
    (List.mem_of_mem_drop (dropTrailingZeros_mem _ x hx))

theorem formatFracDigits_length_le (v d : Nat) :
    (formatFracDigits v d).length ≤ d := by
  have hdle : d ≤ (formatDisplay v d).length := by
    rw [show formatDisplay v d = padStartZeros (natToDigits v) d from rfl,
      padStartZeros_length]
    omega
  have h1 := dropTrailingZeros_length_le
    ((formatDisplay v d).drop ((formatDisplay v d).length - d))
  have h2 : ((formatDisplay v d).drop ((formatDisplay v d).length - d)).length = d := by
    rw [List.length_drop]
    omega
  rw [formatFracDigits]
  omega

/-- The split of the value into integer and fraction digit parts performed
by `formatUnitsNat`, arithmetically. -/
theorem formatUnitsNat_split (v d : Nat) :
    v = valMSD (formatIntDigits v d) * 10 ^ d +
        valMSD (formatFracDigits v d) * 10 ^ (d - (formatFracDigits v d).length) := by
  have hdle : d ≤ (formatDisplay v d).length := by
    rw [show formatDisplay v d = padStartZeros (natToDigits v) d from rfl,
      padStartZeros_length]
    omega
  have hlenfrac0 : ((formatDisplay v d).drop ((formatDisplay v d).length - d)).length = d := by
    rw [List.length_drop]
    omega
  have hv : valMSD (formatDisplay v d) = v := by
    rw [show formatDisplay v d = padStartZeros (natToDigits v) d from rfl,
      valMSD_padStartZeros, valMSD_natToDigits]
  have hsplit : formatDisplay v d = formatIntDigits v d ++
      (formatDisplay v d).drop ((formatDisplay v d).length - d) :=
    (List.take_append_drop _ _).symm
  have hv2 : v = valMSD (formatIntDigits v d) * 10 ^ d +
      valMSD ((formatDisplay v d).drop ((formatDisplay v d).length - d)) := by
    conv_lhs => rw [← hv, hsplit]
    rw [valMSD_append, hlenfrac0]
  have hfr := valMSD_dropTrailingZeros
    ((formatDisplay v d).drop ((formatDisplay v d).length - d))
  conv_lhs => rw [hv2]
  rw [hfr, hlenfrac0]
  rfl

/-- Main exactness lemma: the string produced by `formatUnitsNat v d`
denotes exactly the rational `v / 10 ^ d`. -/
theorem decValue_formatUnitsNat (v d : Nat) :
    decValue (formatUnitsNat v d) = some ((v : ℚ) / 10 ^ d) := by
  have hv := formatUnitsNat_split v d
  have hlenfr := formatFracDigits_length_le v d
  have hintlt := formatIntDigits_lt_ten v d
  have hfrlt := formatFracDigits_lt_ten v d
  -- the rendered integer digit list
  have hintPartlt : ∀ x ∈ (if (formatIntDigits v d).isEmpty then [0]
      else formatIntDigits v d), x < 10 := by
    split
    · intro x hx; simp at hx; omega
    · exact hintlt
  have hintPartne : (if (formatIntDigits v d).isEmpty then [0]
      else formatIntDigits v d) ≠ [] := by
    split
    · simp
    · rename_i h
      intro hc
      rw [hc] at h
      simp at h
  have hintPartval : valMSD (if (formatIntDigits v d).isEmpty then [0]
      else formatIntDigits v d) = valMSD (formatIntDigits v d) := by
    split
    · rename_i h
      have he : formatIntDigits v d = [] := by simpa using h
      rw [he]
      decide
    · rfl
  -- the rational identity
  have hgoal : (valMSD (formatIntDigits v d) : ℚ) +
      (valMSD (formatFracDigits v d) : ℚ) / 10 ^ (formatFracDigits v d).length
      = (v : ℚ) / 10 ^ d := by
    have h10 : (10 : ℚ) ^ d =
        10 ^ (d - (formatFracDigits v d).length) * 10 ^ (formatFracDigits v d).length := by
      rw [← pow_add]
      congr 1
      omega
    have hvq : (v : ℚ) = valMSD (formatIntDigits v d) * 10 ^ d +
        valMSD (formatFracDigits v d) * 10 ^ (d - (formatFracDigits v d).length) := by
      conv_lhs => rw [hv]
      push_cast
      ring
    rw [hvq, h10]
    have hne2 : (10 : ℚ) ^ (formatFracDigits v d).length ≠ 0 := by positivity
    have hne1 : (10 : ℚ) ^ (d - (formatFracDigits v d).length) ≠ 0 := by positivity
    field_simp
    ring
  by_cases hfe : (formatFracDigits v d).isEmpty
  · have hfnil : formatFracDigits v d = [] := by simpa using hfe
    have hrender : formatUnitsNat v d = String.mk ((if (formatIntDigits v d).isEmpty
        then [0] else formatIntDigits v d).map digitChar) := by
      rw [formatUnitsNat]
      simp only [hfe, if_true]
      split <;> simp
    rw [hrender]
    show ((parseDecShape _).map _) = _
    rw [parseDecShape_render_nofrac _ hintPartlt hintPartne]
    simp only [Option.map_some']
    congr 1
    rw [← hgoal, hintPartval, hfnil]
    norm_num [valMSD]
  · have hrender : formatUnitsNat v d = String.mk ((if (formatIntDigits v d).isEmpty
        then [0] else formatIntDigits v d).map digitChar ++
        '.' :: (formatFracDigits v d).map digitChar) := by
      rw [formatUnitsNat]
      simp only [hfe, if_false]
      split <;> simp
    rw [hrender]
    show ((parseDecShape _).map _) = _
    rw [parseDecShape_render_frac _ _ hintPartlt hfrlt hintPartne]
    simp only [Option.map_some']
    congr 1
    rw [← hgoal, hintPartval]
    norm_num

theorem parseDecShape_minus (cs : List Char) (h : (cs.head? == some '-') = false) :
    parseDecShape ('-' :: cs) =
      (parseDecShape cs).map fun x => (true, x.2.1, x.2.2) := by
  simp only [parseDecShape, List.head?_cons, h, if_false, Bool.false_eq_true,
    beq_self_eq_true, if_true, List.tail_cons]
  cases hc : charsToDigits (cs.takeWhile (fun c => c != '.')) with
  | none => simp [hc]
  | some ds =>
    by_cases hrest : cs.dropWhile (fun c => c != '.') = []
    · simp [hc, hrest]
    · simp [hc, hrest]
      rfl

theorem parseDecShape_neg (l : List Char) (neg : Bool) (ds fs : List Nat)
    (h : parseDecShape l = some (neg, ds, fs)) :
    neg = (l.head? == some '-') := by
  cases hb : (l.head? == some '-') with
  | true =>
    simp only [parseDecShape, hb, eq_self_iff_true, if_true] at h
    split at h
    · simp at h
    · split at h
      · simp only [Option.some_inj, Prod.mk.injEq] at h
        exact h.1.symm
      · rw [Option.map_eq_some'] at h
        obtain ⟨a, ha, hfa⟩ := h
        simp only [Prod.mk.injEq] at hfa
        exact hfa.1.symm
  | false =>
    simp only [parseDecShape, hb, Bool.false_eq_true, if_false] at h
    split at h
    · simp at h
    · split at h
      · simp only [Option.some_inj, Prod.mk.injEq] at h
        exact h.1.symm
      · rw [Option.map_eq_some'] at h
        obtain ⟨a, ha, hfa⟩ := h
        simp only [Prod.mk.injEq] at hfa
        exact hfa.1.symm

theorem decValue_mk_minus (cs : List Char) (h : (cs.head? == some '-') = false)
    (q : ℚ) (hq : decValue (String.mk cs) = some q) :
    decValue (String.mk ('-' :: cs)) = some (-q) := by
  simp only [decValue] at hq ⊢
  rw [parseDecShape_minus cs h]
  cases hp : parseDecShape cs with
  | none => rw [hp] at hq; simp at hq
  | some x =>
    rw [hp] at hq
    obtain ⟨neg, ds, fs⟩ := x
    have hneg := parseDecShape_neg cs neg ds fs hp
    rw [h] at hneg
    subst hneg
    simp only [Option.map_some'] at hq ⊢
    simp only [Option.some_inj] at hq
    rw [← hq]
    simp

theorem formatUnitsNat_head_ne_minus (v d : Nat) :
    ((formatUnitsNat v d).data.head? == some '-') = false := by
  rw [formatUnitsNat]
  simp only
  split
  · simp [digitChar]
  · rename_i h
    have hne : formatIntDigits v d ≠ [] := by
      intro hc
      rw [hc] at h
      simp at h
    obtain ⟨d0, t, he⟩ := List.exists_cons_of_ne_nil hne
    rw [he]
    have hd0 : d0 < 10 := formatIntDigits_lt_ten v d d0 (by rw [he]; simp)
    simp [digitChar_ne_minus hd0]

/-- Exactness of `formatUnits` on integers: the rendered string denotes
exactly `value / 10 ^ decimals`. -/
theorem decValue_formatUnits (r : Int) (d : Nat) :
    decValue (formatUnits r d) = some ((r : ℚ) / 10 ^ d) := by
  by_cases hr : r < 0
  · have habs : ((r.natAbs : ℚ)) = -(r : ℚ) := by
      rw [Int.cast_natAbs, abs_of_neg hr]
      push_cast
      ring
    have hpos := decValue_formatUnitsNat r.natAbs d
    have hrender : formatUnits r d = String.mk ('-' :: (formatUnitsNat r.natAbs d).data) := by
      simp only [formatUnits, hr, if_true]
      rfl
    rw [hrender]
    rw [decValue_mk_minus _ (formatUnitsNat_head_ne_minus _ _) _ (by simpa using hpos)]
    congr 1
    rw [habs]
    ring
  · have habs : ((r.natAbs : ℚ)) = (r : ℚ) := by
      rw [Int.cast_natAbs, abs_of_nonneg (not_lt.mp hr)]
    have hrender : formatUnits r d = formatUnitsNat r.natAbs d := by
      simp only [formatUnits, hr, if_false]
      rfl
    rw [hrender, decValue_formatUnitsNat, habs]

/-- The `toString` rendering of a non-negative big integer denotes exactly
that integer (and in particular `get_eth_balance`'s `wei` output is the
decimal string of the balance). -/
theorem decValue_natToDecString (n : Nat) :
    decValue (natToDecString n) = some ((n : ℚ)) := by
  rw [natToDecString]
  simp only [decValue]
  show ((parseDecShape _).map _) = _
  rw [parseDecShape_render_nofrac _ (natToDigits_lt_ten n) (natToDigits_ne_nil n)]
  simp only [Option.map_some']
  congr 1
  simp [valMSD_natToDigits, show valMSD [] = 0 from rfl]

/-! ## Exactness of `parseUnits` -/

theorem roundsUpHalf_nil : roundsUpHalf [] = false := by decide

/-- Forward exactness: on a numeral with at most `D` fraction digits,
`parseUnits` returns exactly the denoted value scaled by `10 ^ D`
(no rounding occurs). -/
theorem parseUnits_exact (A : String) (D : Nat) (neg : Bool) (i f0 : List Nat)
    (hshape : parseDecShape A.data = some (neg, i, f0)) (hlen : f0.length ≤ D) :
    ∃ (r : Int) (vA : ℚ), decValue A = some vA ∧ parseUnits A D = some r ∧
      (r : ℚ) = vA * 10 ^ D := by
  have hdtzlen := dropTrailingZeros_length_le f0
  have hvA : decValue A = some ((if neg then -1 else 1) *
      ((valMSD i : ℚ) + (valMSD f0 : ℚ) / 10 ^ f0.length)) := by
    simp only [decValue, hshape, Option.map_some']
  by_cases hD : D = 0
  · subst hD
    have hf0 : f0 = [] := List.eq_nil_of_length_eq_zero (by omega)
    subst hf0
    refine ⟨if neg then -(valMSD i : ℤ) else (valMSD i : ℤ), _, hvA, ?_, ?_⟩
    · simp only [parseUnits, hshape, Option.map_some']
      norm_num [show dropTrailingZeros [] = [] from rfl, roundsUpHalf_nil]
    · cases neg <;> simp [show valMSD [] = 0 from rfl]
  · have hbranch : ¬ D < (dropTrailingZeros f0).length := by omega
    set fraction := dropTrailingZeros f0 with hfractiondef
    set padded := fraction ++ List.replicate (D - fraction.length) 0 with hpaddeddef
    have hpadlen : padded.length = D := by
      rw [hpaddeddef, List.length_append, List.length_replicate]
      omega
    set N : Nat := valMSD i * 10 ^ padded.length + valMSD padded with hNdef
    refine ⟨if neg then -(N : ℤ) else (N : ℤ), _, hvA, ?_, ?_⟩
    · simp only [parseUnits, hshape, Option.map_some']
      rw [if_neg hD, if_neg hbranch]
    · have hpadval : valMSD padded = valMSD fraction * 10 ^ (D - fraction.length) := by
        rw [hpaddeddef, valMSD_append, valMSD_replicate_zero, List.length_replicate]
        omega
      have hf0val : (valMSD f0 : ℚ) =
          (valMSD fraction : ℚ) * 10 ^ (f0.length - fraction.length) := by
        exact_mod_cast congrArg (Nat.cast (R := ℚ)) (valMSD_dropTrailingZeros f0)
      have e1 : (10 : ℚ) ^ D =
          10 ^ (D - f0.length) * 10 ^ (f0.length - fraction.length) * 10 ^ fraction.length := by
        rw [← pow_add, ← pow_add]
        congr 1
        omega
      have e2 : (10 : ℚ) ^ (D - fraction.length) =
          10 ^ (D - f0.length) * 10 ^ (f0.length - fraction.length) := by
        rw [← pow_add]
        congr 1
        omega
      have e3 : (10 : ℚ) ^ f0.length =
          10 ^ (f0.length - fraction.length) * 10 ^ fraction.length := by
        rw [← pow_add]
        congr 1
        omega
      have hcore : (N : ℚ) =
          ((valMSD i : ℚ) + (valMSD f0 : ℚ) / 10 ^ f0.length) * 10 ^ D := by
        rw [hNdef, hpadlen]
        push_cast [hpadval]
        rw [hf0val, e1, e2, e3]
        have hy : (10 : ℚ) ^ (f0.length - fraction.length) ≠ 0 := by positivity
        have hz : (10 : ℚ) ^ fraction.length ≠ 0 := by positivity
        field_simp
        ring
      cases neg <;>
        simp only [eq_self_iff_true, if_true, Bool.false_eq_true, if_false] <;>
        push_cast <;> rw [hcore] <;> ring

/-- Round-trip: converting a numeral with at most `D` fraction digits to raw
units and formatting the result back yields a string denoting the same value. -/
theorem parseUnits_formatUnits_roundtrip (A : String) (D : Nat) (neg : Bool)
    (i f0 : List Nat) (hshape : parseDecShape A.data = some (neg, i, f0))
    (hlen : f0.length ≤ D) :
    ∃ (r : Int) (vA : ℚ), decValue A = some vA ∧ parseUnits A D = some r ∧
      (r : ℚ) = vA * 10 ^ D ∧ decValue (formatUnits r D) = some vA := by
  obtain ⟨r, vA, h1, h2, h3⟩ := parseUnits_exact A D neg i f0 hshape hlen
  refine ⟨r, vA, h1, h2, h3, ?_⟩
  rw [decValue_formatUnits]
  congr 1
  rw [h3]
  field_simp

/-! ## JSON values

Raw tool arguments and `call_contract` results are JSON-like values.
`bigint` is the extra value kind produced by viem contract reads (and
handled specially by the `JSON.stringify` replacer); `jsonParse` never
produces it. -/

inductive Json where
  | null
  | bool (b : Bool)
  | num (n : Int)
  | str (s : String)
  | arr (xs : List Json)
  | obj (kvs : List (String × Json))
  | bigint (n : Int)

/-- Decimal rendering of an integer (JavaScript `toString`). -/
def intToDecString (n : Int) : String :=
  (if n < 0 then "-" else "") ++ natToDecString n.natAbs

mutual

/-- Model of `JSON.stringify(result, (_, v) => typeof v === "bigint" ?
v.toString() : v, 2)`: big integers are rendered as quoted decimal
strings to avoid precision loss.  (The JavaScript 2-space pretty-printing
whitespace is not reproduced; no claim concerns the whitespace.) -/
def jsonStringify : Json → String
  | .null => "null"
  | .bool true => "true"
  | .bool false => "false"
  | .num n => intToDecString n
  | .str s => "\"" ++ s ++ "\""
  | .bigint n => "\"" ++ intToDecString n ++ "\""
  | .arr xs => "[" ++ jsonStringifyItems xs ++ "]"
  | .obj kvs => "\x7b" ++ jsonStringifyFields kvs ++ "\x7d"

def jsonStringifyItems : List Json → String
  | [] => ""
  | [x] => jsonStringify x
  | x :: xs => jsonStringify x ++ "," ++ jsonStringifyItems xs

def jsonStringifyFields : List (String × Json) → String
  | [] => ""
  | [(k, v)] => "\"" ++ k ++ "\":" ++ jsonStringify v
  | (k, v) :: kvs => "\"" ++ k ++ "\":" ++ jsonStringify v ++ "," ++ jsonStringifyFields kvs

end

/-- Skip JSON whitespace. -/
def skipWs (l : List Char) : List Char :=
  l.dropWhile (fun c => c == ' ' || c == '\n' || c == '\t' || c == '\r')

/-- Parse a JSON string literal body (escape sequences are out of scope:
ABI strings are plain identifiers; a backslash makes the parse fail). -/
def parseStringLit (l : List Char) : Option (String × List Char) :=
  let body := l.takeWhile (fun c => c != '"' && c != '\\')
  match l.dropWhile (fun c => c != '"' && c != '\\') with
  | '"' :: rest => some (String.mk body, rest)
  | _ => none

/-- Parse a JSON integer numeral (fractional and exponent forms are out of
scope: ABI numbers are small integers; a following `.`/`e` makes the
parse fail). -/
def parseJsonNumber (l : List Char) : Option (Json × List Char) :=
  let neg := l.head? == some '-'
  let l1 := if neg then l.tail else l
  let ds := l1.takeWhile (fun c => (charDigit c).isSome)
  let rest := l1.dropWhile (fun c => (charDigit c).isSome)
  match charsToDigits ds with
  | none => none
  | some digs =>
    if digs.isEmpty then none
    else
      match rest with
      | '.' :: _ => none
      | 'e' :: _ => none
      | 'E' :: _ => none
      | _ => some (.num (if neg then -(valMSD digs : Int) else (valMSD digs : Int)), rest)

mutual

/-- Recursive-descent model of `JSON.parse` (fuel-bounded; `jsonParse`
supplies ample fuel). -/
def parseJsonVal : Nat → List Char → Option (Json × List Char)
  | 0, _ => none
  | fuel + 1, l =>
    match skipWs l with
    | 'n' :: 'u' :: 'l' :: 'l' :: rest => some (.null, rest)
    | 't' :: 'r' :: 'u' :: 'e' :: rest => some (.bool true, rest)
    | 'f' :: 'a' :: 'l' :: 's' :: 'e' :: rest => some (.bool false, rest)
    | '"' :: rest => (parseStringLit rest).map fun sr => (.str sr.1, sr.2)
    | '[' :: rest =>
      (match skipWs rest with
       | ']' :: r2 => some (.arr [], r2)
       | r1 => (parseJsonItems fuel r1).map fun xr => (.arr xr.1, xr.2))
    | '{' :: rest =>
      (match skipWs rest with
       | '}' :: r2 => some (.obj [], r2)
       | r1 => (parseJsonFields fuel r1).map fun xr => (.obj xr.1, xr.2))
    | l1 => parseJsonNumber l1

/-- Parse one-or-more comma-separated array items up to `]`. -/
def parseJsonItems : Nat → List Char → Option (List Json × List Char)
  | 0, _ => none
  | fuel + 1, l =>
    match parseJsonVal fuel l with
    | none => none
    | some (v, rest) =>
      match skipWs rest with
      | ',' :: r2 => (parseJsonItems fuel r2).map fun xr => (v :: xr.1, xr.2)
      | ']' :: r2 => some ([v], r2)
      | _ => none

/-- Parse one-or-more comma-separated object fields up to the closing
brace. -/
def parseJsonFields : Nat → List Char → Option (List (String × Json) × List Char)
  | 0, _ => none
  | fuel + 1, l =>
    match skipWs l with
    | '"' :: r0 =>
      match parseStringLit r0 with
      | none => none
      | some (k, r1) =>
        match skipWs r1 with
        | ':' :: r2 =>
          (match parseJsonVal fuel r2 with
           | none => none
           | some (v, rest) =>
             match skipWs rest with
             | ',' :: r3 => (parseJsonFields fuel r3).map fun xr => ((k, v) :: xr.1, xr.2)
             | '}' :: r3 => some ([(k, v)], r3)
             | _ => none)
        | _ => none
    | _ => none

end

/-- Model of `JSON.parse` on the JSON subset relevant to contract ABIs
(arrays, objects, plain strings, integers, booleans, null). -/
def jsonParse (s : String) : Option Json :=
  match parseJsonVal (s.length + 1) s.data with
  | some (v, rest) => if skipWs rest = [] then some v else none
  | none => none

example : jsonParse "[]" = some (.arr []) := rfl
example : jsonParse "[1, -2]" = some (.arr [.num 1, .num (-2)]) := rfl
example : jsonParse "\x7b\"name\": \"decimals\"\x7d" =
    some (.obj [("name", .str "decimals")]) := rfl
example : jsonParse "nonsense" = none := rfl
example : jsonStringify (.arr [.bigint 1500000, .str "ok"]) = "[\"1500000\",\"ok\"]" := rfl

/-! ## Process environment and chain clients (`client.ts`) -/

/-- Models `export const DEFAULT_RPC_URL = "http://127.0.0.1:8545"`. -/
def DEFAULT_RPC_URL : String := "http://127.0.0.1:8545"

/-- Process-wide inputs: `process.argv.slice(2)`, `process.env.RPC_URL`,
`process.env.PRIVATE_KEY`. -/
structure Env where
  cliArgs : List String
  rpcUrlEnvVar : Option String
  privateKeyEnvVar : Option String

/-- Models `export const rpcUrl = cliArgs[0] ?? process.env.RPC_URL ??
DEFAULT_RPC_URL` (resolved once at startup). -/
def rpcUrl (env : Env) : String :=
  match env.cliArgs.head? with
  | some u => u
  | none =>
    match env.rpcUrlEnvVar with
    | some u => u
    | none => DEFAULT_RPC_URL

structure NativeCurrency where
  decimals : Nat
  name : String
  symbol : String
deriving DecidableEq

structure ChainContract where
  address : String
  blockCreated : Nat
deriving DecidableEq

/-- The chain identity passed to `defineChain`. -/
structure ChainDef where
  id : Nat
  name : String
  nativeCurrency : NativeCurrency
  rpcHttp : List String
  multicall3 : ChainContract
deriving DecidableEq

/-- Models `export const testChain = defineChain({id: 1337, ...})`. -/
def testChain (env : Env) : ChainDef :=
  { id := 1337
    name := "LocalTestChain"
    nativeCurrency := { decimals := 18, name := "Ether", symbol := "ETH" }
    rpcHttp := [rpcUrl env]
    multicall3 := { address := "0xcA11bde05977b3631167028862bE2a173976CA11"
                    blockCreated := 0 } }

/-- A read-only chain client: `createPublicClient({transport: http(rpcUrl),
chain: testChain})` is identified by its endpoint and chain identity. -/
structure PublicClient where
  url : String
  chain : ChainDef
deriving DecidableEq

def createPublicClient (env : Env) : PublicClient :=
  { url := rpcUrl env, chain := testChain env }

/-- The module-level mutable `let _publicClient : ... | undefined`. -/
abbrev ClientState := Option PublicClient

/-- Model of `getPublicClient`: construct the read client on first call, return the
cached instance afterwards. -/
def getPublicClient (env : Env) (cs : ClientState) : PublicClient × ClientState :=
  match cs with
  | some c => (c, some c)
  | none =>
    let c := createPublicClient env
    (c, some c)

/-! ## Error taxonomy

Every exception the handlers can throw, as one inductive.  The
`missingCredential` constructor exists to state the specification's
`MissingCredentialError` claims; no code path constructs it. -/

inductive Err where
  | validation (issues : List String)
  | unknownTool (name : String)
  | invalidKey (msg : String)
  | missingCredential (msg : String)
  | invalidDecimal (value : String)
  | jsonParseError (msg : String)
  | chainRpc (msg : String)
  | typeError (msg : String)
deriving DecidableEq

/-- Rendering of a `ZodError`'s `.message` (the issue list). -/
def zodMessage (issues : List String) : String :=
  String.intercalate "; " issues

/-- Models `err instanceof Error ? err.message : String(err)` for each modelled
exception. -/
def errMessage : Err → String
  | .validation issues => zodMessage issues
  | .unknownTool n => "Unknown tool: " ++ n
  | .invalidKey m => m
  | .missingCredential m => m
  | .invalidDecimal v => "Invalid decimal number: " ++ v
  | .jsonParseError m => m
  | .chainRpc m => m
  | .typeError m => m

/-- Hex digit test for private-key well-formedness. -/
def isHexDigit (c : Char) : Bool :=
  (charDigit c).isSome || (97 ≤ c.toNat && c.toNat ≤ 102) || (65 ≤ c.toNat && c.toNat ≤ 70)

/-- A well-formed 32-byte hex private key: `0x` followed by 64 hex digits. -/
def isWellFormedPrivateKey (s : String) : Bool :=
  match s.data with
  | '0' :: 'x' :: rest => rest.length == 64 && rest.all isHexDigit
  | _ => false

/-- An account derived from a private key (identified by the key; address
derivation is external cryptography carried opaquely). -/
structure Account where
  privateKey : String
deriving DecidableEq

/-- Model of viem `privateKeyToAccount` at the call site
`getWalletClient(privateKey as ...)`.  When `process.env.PRIVATE_KEY` is
absent the handlers pass `undefined`, and the JavaScript key parsing
throws (a `TypeError`); a present but malformed key fails key parsing
with viem's invalid-key error.  Both are modelled as `Err.invalidKey`; no
code path distinguishes a missing key from a malformed one, and no
`MissingCredentialError` exists in the code.  (The secp256k1 scalar range
check is not modelled; no claim rests on a well-formed-hex but
out-of-range key.) -/
def privateKeyToAccount (pk : Option String) : Except Err Account :=
  match pk with
  | none => .error (.invalidKey "Cannot read properties of undefined")
  | some k =>
    if isWellFormedPrivateKey k then .ok { privateKey := k }
    else .error (.invalidKey ("invalid private key: " ++ k))

/-- A signing client: fresh per call, never cached. -/
structure WalletClient where
  account : Account
  url : String
  chain : ChainDef
deriving DecidableEq

/-- Model of `getWalletClient(privateKey)`: derive the account, then build a wallet
client on the same endpoint and chain identity. -/
def getWalletClient (env : Env) (pk : Option String) : Except Err WalletClient :=
  (privateKeyToAccount pk).map fun account =>
    { account := account, url := rpcUrl env, chain := testChain env }

/-! ## Chain oracle and interaction traces -/

/-- A transaction submitted for broadcast. -/
inductive Tx where
  | sendEth (fromKey toAddr : String) (value : Int)
  | writeErc20 (fromKey token functionName addrArg : String) (amountRaw : Int)
deriving DecidableEq

/-- One chain RPC interaction (read or broadcast), in the order performed. -/
inductive ChainEvent where
  | getBalance (address : String)
  | balanceOf (token account : String)
  | readDecimals (token : String)
  | readAllowance (token owner spender : String)
  | contractRead (address functionName : String)
  | broadcast (tx : Tx)
deriving DecidableEq

/-- The external JSON-RPC node, as an oracle.  Reads are total (the node
answers); the generic contract read may fail (unknown function, revert),
surfacing as `ChainRpcError`. -/
structure Chain where
  balance : String → Nat
  decimalsOf : String → Nat
  balanceOfFn : String → String → Nat
  allowanceFn : String → String → String → Nat
  contractReadFn : String → Option Json → String → List Json → Except String Json
  broadcastTx : Tx → String

/-! ## Argument schemas (`schemas.ts`)

Each zod object schema is modelled by a `safeParse` function over the raw
argument mapping.  zod's `z.object` ignores undeclared keys, collects an
issue for every violated constraint, and applies declared defaults. -/

/-- The raw argument mapping of a tool call (`Record<string, unknown>`). -/
abbrev RawObj := List (String × Json)

/-- Property lookup on the raw argument object. -/
def lookupField (o : RawObj) (k : String) : Option Json :=
  (o.find? (fun kv => kv.1 == k)).map (fun kv => kv.2)

/-- Issues carried by one field's parse outcome. -/
def fieldIssues {α : Type} : Except (List String) α → List String
  | .ok _ => []
  | .error e => e

/-- Models `z.string()` on a required field. -/
def requireString (o : RawObj) (k : String) : Except (List String) String :=
  match lookupField o k with
  | some (Json.str s) => .ok s
  | some _ => .error [k ++ ": Expected string"]
  | none => .error [k ++ ": Required"]

/-- Models `unit: z.enum(["wei", "ether", "gwei"]).optional().default("ether")`. -/
inductive EthUnit where
  | wei
  | ether
  | gwei
deriving DecidableEq

def parseUnitField (o : RawObj) : Except (List String) EthUnit :=
  match lookupField o "unit" with
  | none => .ok .ether
  | some (Json.str "wei") => .ok .wei
  | some (Json.str "ether") => .ok .ether
  | some (Json.str "gwei") => .ok .gwei
  | some _ => .error ["unit: Invalid enum value"]

structure GetEthBalanceArgs where
  address : String
  unit : EthUnit
deriving DecidableEq

def GetEthBalanceArgsSchema_safeParse (raw : Option RawObj) :
    Except Err GetEthBalanceArgs :=
  match raw with
  | none => .error (.validation ["Expected object, received undefined"])
  | some o =>
    match requireString o "address", parseUnitField o with
    | .ok a, .ok u => .ok { address := a, unit := u }
    | ra, ru => .error (.validation (fieldIssues ra ++ fieldIssues ru))

structure GetErc20BalanceArgs where
  tokenAddress : String
  accountAddress : String
deriving DecidableEq

def GetErc20BalanceArgsSchema_safeParse (raw : Option RawObj) :
    Except Err GetErc20BalanceArgs :=
  match raw with
  | none => .error (.validation ["Expected object, received undefined"])
  | some o =>
    match requireString o "tokenAddress", requireString o "accountAddress" with
    | .ok t, .ok a => .ok { tokenAddress := t, accountAddress := a }
    | rt, ra => .error (.validation (fieldIssues rt ++ fieldIssues ra))

structure SendEthArgs where
  toAddr : String
  amountEth : String
deriving DecidableEq

def SendEthArgsSchema_safeParse (raw : Option RawObj) : Except Err SendEthArgs :=
  match raw with
  | none => .error (.validation ["Expected object, received undefined"])
  | some o =>
    match requireString o "to", requireString o "amountEth" with
    | .ok t, .ok a => .ok { toAddr := t, amountEth := a }
    | rt, ra => .error (.validation (fieldIssues rt ++ fieldIssues ra))

/-- Models `abi: z.union([z.string(), z.any()])`: a string stays a string, any
other present value is taken as the structured ABI, and an absent field
passes too (z.any accepts undefined). -/
inductive AbiArg where
  | str (s : String)
  | val (j : Json)
  | missing

def parseAbiField (o : RawObj) : AbiArg :=
  match lookupField o "abi" with
  | some (Json.str s) => .str s
  | some j => .val j
  | none => .missing

/-- Models `args: z.array(z.any()).optional().default([])`. -/
def parseArgsField (o : RawObj) : Except (List String) (List Json) :=
  match lookupField o "args" with
  | none => .ok []
  | some (Json.arr xs) => .ok xs
  | some _ => .error ["args: Expected array"]

structure CallContractArgs where
  address : String
  abi : AbiArg
  functionName : String
  args : List Json

def CallContractArgsSchema_safeParse (raw : Option RawObj) :
    Except Err CallContractArgs :=
  match raw with
  | none => .error (.validation ["Expected object, received undefined"])
  | some o =>
    match requireString o "address", requireString o "functionName", parseArgsField o with
    | .ok a, .ok fn, .ok ar =>
      .ok { address := a, abi := parseAbiField o, functionName := fn, args := ar }
    | ra, rf, rr =>
      .error (.validation (fieldIssues ra ++ fieldIssues rf ++ fieldIssues rr))

structure Erc20TransferArgs where
  tokenAddress : String
  toAddr : String
  amount : String
deriving DecidableEq

def Erc20TransferArgsSchema_safeParse (raw : Option RawObj) :
    Except Err Erc20TransferArgs :=
  match raw with
  | none => .error (.validation ["Expected object, received undefined"])
  | some o =>
    match requireString o "tokenAddress", requireString o "to", requireString o "amount" with
    | .ok tk, .ok t, .ok a => .ok { tokenAddress := tk, toAddr := t, amount := a }
    | rtk, rt, ra =>
      .error (.validation (fieldIssues rtk ++ fieldIssues rt ++ fieldIssues ra))

structure Erc20ApproveArgs where
  tokenAddress : String
  spender : String
  amount : String
deriving DecidableEq

def Erc20ApproveArgsSchema_safeParse (raw : Option RawObj) :
    Except Err Erc20ApproveArgs :=
  match raw with
  | none => .error (.validation ["Expected object, received undefined"])
  | some o =>
    match requireString o "tokenAddress", requireString o "spender", requireString o "amount" with
    | .ok tk, .ok s, .ok a => .ok { tokenAddress := tk, spender := s, amount := a }
    | rtk, rs, ra =>
      .error (.validation (fieldIssues rtk ++ fieldIssues rs ++ fieldIssues ra))

structure Erc20AllowanceArgs where
  tokenAddress : String
  owner : String
  spender : String
deriving DecidableEq

def Erc20AllowanceArgsSchema_safeParse (raw : Option RawObj) :
    Except Err Erc20AllowanceArgs :=
  match raw with
  | none => .error (.validation ["Expected object, received undefined"])
  | some o =>
    match requireString o "tokenAddress", requireString o "owner", requireString o "spender" with
    | .ok tk, .ok ow, .ok s => .ok { tokenAddress := tk, owner := ow, spender := s }
    | rtk, ro, rs =>
      .error (.validation (fieldIssues rtk ++ fieldIssues ro ++ fieldIssues rs))

/-! ## Tool handlers (`toolHandlers.ts`)

Each handler validates, acts through the chain oracle, and formats a text
response.  A handler result carries the response (or thrown error), the
read-client cache state after the call, and the ordered chain-interaction
trace. -/

inductive ContentItem where
  | text (s : String)
deriving DecidableEq

/-- The MCP tool response object; handlers never set `isError`. -/
structure ToolResponse where
  content : List ContentItem
  isError : Option Bool := none
deriving DecidableEq

abbrev HandlerResult := Except Err ToolResponse × ClientState × List ChainEvent

/-- Model of `getPrivateKey()`: reads `process.env.PRIVATE_KEY`. -/
def getPrivateKey (env : Env) : Option String := env.privateKeyEnvVar

def handleGetEthBalance (env : Env) (chain : Chain) (cs : ClientState)
    (raw : Option RawObj) : HandlerResult :=
  match GetEthBalanceArgsSchema_safeParse raw with
  | .error e => (.error e, cs, [])
  | .ok args =>
    let (_client, cs') := getPublicClient env cs
    let balance := chain.balance args.address
    let formatted :=
      match args.unit with
      | .wei => natToDecString balance
      | .gwei => formatUnits (balance : Int) 9
      | .ether => formatEther (balance : Int)
    (.ok { content := [.text formatted] }, cs', [.getBalance args.address])

def handleGetErc20Balance (env : Env) (chain : Chain) (cs : ClientState)
    (raw : Option RawObj) : HandlerResult :=
  match GetErc20BalanceArgsSchema_safeParse raw with
  | .error e => (.error e, cs, [])
  | .ok args =>
    let (_client, cs') := getPublicClient env cs
    let balance := chain.balanceOfFn args.tokenAddress args.accountAddress
    let decimals := chain.decimalsOf args.tokenAddress
    let human := formatUnits (balance : Int) decimals
    let formatted := human ++ " tokens (" ++ natToDecString balance ++ " raw)"
    (.ok { content := [.text formatted] }, cs',
      [.balanceOf args.tokenAddress args.accountAddress, .readDecimals args.tokenAddress])

def handleSendEth (env : Env) (chain : Chain) (cs : ClientState)
    (raw : Option RawObj) : HandlerResult :=
  match SendEthArgsSchema_safeParse raw with
  | .error e => (.error e, cs, [])
  | .ok args =>
    match getWalletClient env (getPrivateKey env) with
    | .error e => (.error e, cs, [])
    | .ok wallet =>
      match parseEther args.amountEth with
      | none => (.error (.invalidDecimal args.amountEth), cs, [])
      | some value =>
        let tx := Tx.sendEth wallet.account.privateKey args.toAddr value
        let hash := chain.broadcastTx tx
        (.ok { content := [.text ("Transaction broadcast.  Hash: " ++ hash)] }, cs,
          [.broadcast tx])

def handleCallContract (env : Env) (chain : Chain) (cs : ClientState)
    (raw : Option RawObj) : HandlerResult :=
  match CallContractArgsSchema_safeParse raw with
  | .error e => (.error e, cs, [])
  | .ok args =>
    let resolved : Except Err (Option Json) :=
      match args.abi with
      | .str s =>
        match jsonParse s with
        | some v => .ok (some v)
        | none => .error (.jsonParseError ("Unexpected token in JSON: " ++ s))
      | .val j => .ok (some j)
      | .missing => .ok none
    match resolved with
    | .error e => (.error e, cs, [])
    | .ok abi =>
      let (_client, cs') := getPublicClient env cs
      match chain.contractReadFn args.address abi args.functionName args.args with
      | .error m => (.error (.chainRpc m), cs', [.contractRead args.address args.functionName])
      | .ok result =>
        (.ok { content := [.text (jsonStringify result)] }, cs',
          [.contractRead args.address args.functionName])

def handleErc20Transfer (env : Env) (chain : Chain) (cs : ClientState)
    (raw : Option RawObj) : HandlerResult :=
  match Erc20TransferArgsSchema_safeParse raw with
  | .error e => (.error e, cs, [])
  | .ok args =>
    match getWalletClient env (getPrivateKey env) with
    | .error e => (.error e, cs, [])
    | .ok wallet =>
      let (_client, cs') := getPublicClient env cs
      let decimals := chain.decimalsOf args.tokenAddress
      match parseUnits args.amount decimals with
      | none => (.error (.invalidDecimal args.amount), cs', [.readDecimals args.tokenAddress])
      | some amountRaw =>
        let tx := Tx.writeErc20 wallet.account.privateKey args.tokenAddress
          "transfer" args.toAddr amountRaw
        let hash := chain.broadcastTx tx
        (.ok { content := [.text ("Transfer submitted. Tx hash: " ++ hash)] }, cs',
          [.readDecimals args.tokenAddress, .broadcast tx])

def handleErc20Approve (env : Env) (chain : Chain) (cs : ClientState)
    (raw : Option RawObj) : HandlerResult :=
  match Erc20ApproveArgsSchema_safeParse raw with
  | .error e => (.error e, cs, [])
  | .ok args =>
    match getWalletClient env (getPrivateKey env) with
    | .error e => (.error e, cs, [])
    | .ok wallet =>
      let (_client, cs') := getPublicClient env cs
      let decimals := chain.decimalsOf args.tokenAddress
      match parseUnits args.amount decimals with
      | none => (.error (.invalidDecimal args.amount), cs', [.readDecimals args.tokenAddress])
      | some amountRaw =>
        let tx := Tx.writeErc20 wallet.account.privateKey args.tokenAddress
          "approve" args.spender amountRaw
        let hash := chain.broadcastTx tx
        (.ok { content := [.text ("Approve transaction broadcast. Tx hash: " ++ hash)] }, cs',
          [.readDecimals args.tokenAddress, .broadcast tx])

def handleErc20Allowance (env : Env) (chain : Chain) (cs : ClientState)
    (raw : Option RawObj) : HandlerResult :=
  match Erc20AllowanceArgsSchema_safeParse raw with
  | .error e => (.error e, cs, [])
  | .ok args =>
    let (_client, cs') := getPublicClient env cs
    let allowanceRaw := chain.allowanceFn args.tokenAddress args.owner args.spender
    let decimals := chain.decimalsOf args.tokenAddress
    let human := formatUnits (allowanceRaw : Int) decimals
    (.ok { content := [.text (human ++ " tokens (" ++ natToDecString allowanceRaw ++ " raw)")] },
      cs', [.readAllowance args.tokenAddress args.owner args.spender,
        .readDecimals args.tokenAddress])

def handleGetRpcUrl (env : Env) (cs : ClientState) : HandlerResult :=
  (.ok { content := [.text (rpcUrl env)] }, cs, [])

/-! ## Handler map and dispatcher -/

/-- The eight registered tool names, in declaration order. -/
def toolNames : List String :=
  ["get_eth_balance", "get_erc20_balance", "send_eth", "call_contract",
   "erc20_transfer", "erc20_approve", "erc20_allowance", "get_rpc_url"]

/-- The value found by the property lookup `handlers[toolName]`: either one
of the record's own eight handlers, or a truthy member inherited from
`Object.prototype` (the record is a plain object literal, so the lookup
walks the prototype chain). -/
inductive HandlerSlot where
  | own (fn : ClientState → Option RawObj → HandlerResult)
  | inherited (name : String)

/-- The property names every object literal inherits from
`Object.prototype` (its data properties plus the `__proto__` accessor). -/
def objectPrototypeMemberNames : List String :=
  ["constructor", "hasOwnProperty", "isPrototypeOf", "propertyIsEnumerable",
   "toLocaleString", "toString", "valueOf", "__defineGetter__",
   "__defineSetter__", "__lookupGetter__", "__lookupSetter__", "__proto__"]

/-- Modelled from JavaScript semantics (external to the repository): the
outcome of `fn(rawArgs)` when `fn = handlers[name]` was inherited from
`Object.prototype` (strict-mode call, so `this` is `undefined`).
`toString` resolves with the plain string "[object Undefined]" and
`constructor` (the `Object` function) resolves with a fresh object;
neither resolved value is a `ToolResponse`, and reading `content` or
`isError` off it gives `undefined` — modelled, as everywhere in this
embedding, by the empty content list and `none`.  `isPrototypeOf`
resolves with `false` when its argument is `undefined` and otherwise
coerces `this` and throws a `TypeError`.  `__proto__` reads as
`Object.prototype` itself, which is not callable, so the call throws a
`TypeError`; every remaining member coerces `this` via
`ToObject(undefined)` (or reads a property of `this`) and throws a
`TypeError`.  No chain RPC happens on any of these paths.  (The exact
engine-specific `TypeError` message texts are not reproduced.) -/
def invokeInheritedMember (name : String) (cs : ClientState)
    (rawArgs : Option RawObj) : HandlerResult :=
  if name = "toString" then (.ok { content := [], isError := none }, cs, [])
  else if name = "constructor" then (.ok { content := [], isError := none }, cs, [])
  else if name = "isPrototypeOf" then
    match rawArgs with
    | none => (.ok { content := [], isError := none }, cs, [])
    | some _ => (.error (.typeError "Cannot convert undefined or null to object"), cs, [])
  else if name = "__proto__" then
    (.error (.typeError "fn is not a function"), cs, [])
  else
    (.error (.typeError "Cannot convert undefined or null to object"), cs, [])

/-- The `handlers` record lookup `handlers[toolName]`: the record's own
property for the eight registered names; for an `Object.prototype` member
name the lookup walks the prototype chain of the object literal and still
finds a (truthy) value; only otherwise is the result `undefined`. -/
def handlers (env : Env) (chain : Chain) (name : String) : Option HandlerSlot :=
  if name = "get_eth_balance" then some (.own (handleGetEthBalance env chain))
  else if name = "get_erc20_balance" then some (.own (handleGetErc20Balance env chain))
  else if name = "send_eth" then some (.own (handleSendEth env chain))
  else if name = "call_contract" then some (.own (handleCallContract env chain))
  else if name = "erc20_transfer" then some (.own (handleErc20Transfer env chain))
  else if name = "erc20_approve" then some (.own (handleErc20Approve env chain))
  else if name = "erc20_allowance" then some (.own (handleErc20Allowance env chain))
  else if name = "get_rpc_url" then some (.own (fun cs _ => handleGetRpcUrl env cs))
  else if name ∈ objectPrototypeMemberNames then some (.inherited name)
  else none

/-- Model of `handleTool`: look `handlers[toolName]` up (prototype chain
included); `if (!fn) throw new Error(`Unknown tool: ...`)` fires only
when the lookup is `undefined`; otherwise `fn(rawArgs)` is invoked —
a registered handler runs and its result is returned unchanged, while a
member inherited from `Object.prototype` is invoked as a plain call. -/
def handleTool (env : Env) (chain : Chain) (cs : ClientState)
    (toolName : String) (rawArgs : Option RawObj) : HandlerResult :=
  match handlers env chain toolName with
  | none => (.error (.unknownTool toolName), cs, [])
  | some (.own fn) => fn cs rawArgs
  | some (.inherited name) => invokeInheritedMember name cs rawArgs

/-! ## Protocol front-end (`index.ts` call-tool request handler) -/

/-- The envelope returned over the protocol. -/
structure McpEnvelope where
  content : List ContentItem
  isError : Option Bool

/-- The `CallToolRequestSchema` handler: delegate to `handleTool`; pass a
success through; catch any thrown failure and convert it to a single
`"Error: <message>"` text line with the error flag set. -/
def callToolRequestHandler (env : Env) (chain : Chain) (cs : ClientState)
    (toolName : String) (toolArgs : Option RawObj) :
    McpEnvelope × ClientState × List ChainEvent :=
  match handleTool env chain cs toolName toolArgs with
  | (.ok r, cs', ev) => ({ content := r.content, isError := r.isError }, cs', ev)
  | (.error e, cs', ev) =>
    ({ content := [.text ("Error: " ++ errMessage e)], isError := some true }, cs', ev)

/-! ## Concrete fixtures for witnesses and counterexamples -/

/-- A process environment with no CLI argument, no `RPC_URL` and no
`PRIVATE_KEY`. -/
def envNoKey : Env :=
  { cliArgs := [], rpcUrlEnvVar := none, privateKeyEnvVar := none }

/-- A syntactically well-formed 32-byte private key. -/
def testKey : String :=
  "0xaaaaaaaaaaaaaaaaaaaaaaaaaaaaaaaaaaaaaaaaaaaaaaaaaaaaaaaaaaaaaaaa"

/-- A process environment configured with `testKey`. -/
def envWithKey : Env :=
  { cliArgs := [], rpcUrlEnvVar := none, privateKeyEnvVar := some testKey }

/-- A deterministic node oracle: zero balances, 6 token decimals, failing
generic reads, constant broadcast hash. -/
def chainZero : Chain :=
  { balance := fun _ => 0
    decimalsOf := fun _ => 6
    balanceOfFn := fun _ _ => 0
    allowanceFn := fun _ _ _ => 0
    contractReadFn := fun _ _ _ _ => .error "function not found"
    broadcastTx := fun _ => "0xhash" }

example : isWellFormedPrivateKey testKey = true := by decide

/-! ## Claim C4 — dispatcher (corrected) -/

/-- Every invocation of an `Object.prototype`-inherited member either
resolves (with a foreign, non-`ToolResponse` value) or throws a
`TypeError`; it never produces an `UnknownToolError`. -/
theorem invokeInheritedMember_cases (name : String) (cs : ClientState)
    (raw : Option RawObj) :
    invokeInheritedMember name cs raw =
        (.ok { content := [], isError := none }, cs, []) ∨
      ∃ m, invokeInheritedMember name cs raw =
        (.error (.typeError m), cs, []) := by
  unfold invokeInheritedMember
  split_ifs
  · exact Or.inl rfl
  · exact Or.inl rfl
  · cases raw with
    | none => exact Or.inl rfl
    | some o => exact Or.inr ⟨_, rfl⟩
  · exact Or.inr ⟨_, rfl⟩
  · exact Or.inr ⟨_, rfl⟩

theorem invokeInheritedMember_ne_unknown (name : String) (cs : ClientState)
    (raw : Option RawObj) (cs' : ClientState) (ev : List ChainEvent)
    (n2 : String) :
    invokeInheritedMember name cs raw ≠ (.error (.unknownTool n2), cs', ev) := by
  rcases invokeInheritedMember_cases name cs raw with h | ⟨m, h⟩ <;>
    rw [h] <;> intro hc <;>
    (have h1 := congrArg (fun t => t.1) hc; simp at h1)

/-- C4 counterexample: "toString" is not one of the eight registered
tools, yet dispatch does not fail with `UnknownToolError` — the object
literal inherits `Object.prototype.toString`, the lookup is truthy, and
the call resolves (with a foreign value), so the claim's universal
unknown-name clause is false of the program. -/
theorem claim_C4_counterexample :
    ("toString" ∉ toolNames) ∧
    handleTool envNoKey chainZero none "toString" none =
      (.ok { content := [], isError := none }, none, []) ∧
    handleTool envNoKey chainZero none "toString" none ≠
      (.error (.unknownTool "toString"), none, []) := by
  refine ⟨by decide, rfl, ?_⟩
  intro hc
  have h2 : handleTool envNoKey chainZero none "toString" none =
      (.ok { content := [], isError := none }, none, []) := rfl
  rw [h2] at hc
  have h1 := congrArg (fun t => t.1) hc
  simp at h1

/-- C4 amended: dispatch looks `handlers[toolName]` up on a plain object
literal, which inherits `Object.prototype`.  For every name that is
neither one of the eight registered tools nor an `Object.prototype`
member, dispatch fails with `UnknownToolError`; every registered name
invokes exactly that tool's handler on the raw arguments and returns its
result unchanged, with no per-tool special casing; and every
`Object.prototype` member name is dispatched to the truthy inherited
member instead — never failing with `UnknownToolError` (the inherited
call resolves with a foreign value or throws a `TypeError`). -/
theorem claim_C4_dispatch (env : Env) (chain : Chain) (cs : ClientState)
    (raw : Option RawObj) :
    (∀ name : String, name ∉ toolNames → name ∉ objectPrototypeMemberNames →
      handleTool env chain cs name raw = (.error (.unknownTool name), cs, [])) ∧
    handleTool env chain cs "get_eth_balance" raw = handleGetEthBalance env chain cs raw ∧
    handleTool env chain cs "get_erc20_balance" raw = handleGetErc20Balance env chain cs raw ∧
    handleTool env chain cs "send_eth" raw = handleSendEth env chain cs raw ∧
    handleTool env chain cs "call_contract" raw = handleCallContract env chain cs raw ∧
    handleTool env chain cs "erc20_transfer" raw = handleErc20Transfer env chain cs raw ∧
    handleTool env chain cs "erc20_approve" raw = handleErc20Approve env chain cs raw ∧
    handleTool env chain cs "erc20_allowance" raw = handleErc20Allowance env chain cs raw ∧
    handleTool env chain cs "get_rpc_url" raw = handleGetRpcUrl env cs ∧
    (∀ name ∈ objectPrototypeMemberNames,
      handleTool env chain cs name raw = invokeInheritedMember name cs raw ∧
      ∀ cs' ev, handleTool env chain cs name raw ≠
        (.error (.unknownTool name), cs', ev)) := by
  refine ⟨?_, rfl, rfl, rfl, rfl, rfl, rfl, rfl, rfl, ?_⟩
  · intro name hname hproto
    simp only [toolNames, List.mem_cons, List.not_mem_nil, or_false] at hname
    push_neg at hname
    obtain ⟨h1, h2, h3, h4, h5, h6, h7, h8⟩ := hname
    simp [handleTool, handlers, h1, h2, h3, h4, h5, h6, h7, h8, hproto]
  · intro name hmem
    have hroute : handleTool env chain cs name raw =
        invokeInheritedMember name cs raw := by
      simp only [objectPrototypeMemberNames, List.mem_cons,
        List.not_mem_nil, or_false] at hmem
      rcases hmem with rfl | rfl | rfl | rfl | rfl | rfl | rfl | rfl | rfl | rfl | rfl | rfl <;>
        rfl
    refine ⟨hroute, fun cs' ev => ?_⟩
    rw [hroute]
    exact invokeInheritedMember_ne_unknown name cs raw cs' ev name

/-- Closed instance of the amended C4: a genuinely unknown name is
rejected, a registered one is routed to its handler, and the inherited
"toString" is dispatched to the inherited member. -/
theorem claim_C4_dispatch_witness :
    handleTool envNoKey chainZero none "nope" none =
      (.error (.unknownTool "nope"), none, []) ∧
    handleTool envNoKey chainZero none "get_rpc_url" none =
      handleGetRpcUrl envNoKey none ∧
    handleTool envNoKey chainZero none "toString" none =
      invokeInheritedMember "toString" none none :=
  ⟨(claim_C4_dispatch envNoKey chainZero none none).1 "nope" (by decide) (by decide),
   (claim_C4_dispatch envNoKey chainZero none none).2.2.2.2.2.2.2.2.1,
   ((claim_C4_dispatch envNoKey chainZero none none).2.2.2.2.2.2.2.2.2
      "toString" (by decide)).1⟩

/-! ## Claim C3 — protocol front-end error envelope -/

/-- C3: the protocol front-end is total over dispatch outcomes: any thrown
failure (validation, unknown tool, chain fault, key fault) is converted
to an envelope whose content is the single text line `"Error: <message>"`
with the error flag set, and a successful dispatch's content passes
through unchanged — no exception crosses the protocol boundary. -/
theorem claim_C3_frontend_catches (env : Env) (chain : Chain) (cs : ClientState)
    (name : String) (args : Option RawObj) :
    (∀ e cs' ev, handleTool env chain cs name args = (.error e, cs', ev) →
      callToolRequestHandler env chain cs name args =
        ({ content := [.text ("Error: " ++ errMessage e)], isError := some true }, cs', ev)) ∧
    (∀ r cs' ev, handleTool env chain cs name args = (.ok r, cs', ev) →
      callToolRequestHandler env chain cs name args =
        ({ content := r.content, isError := r.isError }, cs', ev)) := by
  constructor
  · intro e cs' ev h
    simp [callToolRequestHandler, h]
  · intro r cs' ev h
    simp [callToolRequestHandler, h]

/-- Closed instance of C3: an unknown-tool fault surfaces as the
error-flagged `"Error: ..."` envelope. -/
theorem claim_C3_frontend_catches_witness :
    callToolRequestHandler envNoKey chainZero none "bogus" none =
      ({ content := [.text ("Error: " ++ errMessage (.unknownTool "bogus"))],
         isError := some true }, none, []) :=
  (claim_C3_frontend_catches envNoKey chainZero none "bogus" none).1
    (.unknownTool "bogus") none [] rfl

/-! ## Claim C9 — read-client singleton -/

/-- Repeated calls to the provider, collecting every returned client. -/
def iterateGetPublicClient (env : Env) : Nat → ClientState → List PublicClient × ClientState
  | 0, cs => ([], cs)
  | n + 1, cs =>
    let p := getPublicClient env cs
    let rest := iterateGetPublicClient env n p.2
    (p.1 :: rest.1, rest.2)

theorem iterateGetPublicClient_all (env : Env) :
    ∀ n cs, (cs = none ∨ cs = some (createPublicClient env)) →
      ∀ c ∈ (iterateGetPublicClient env n cs).1, c = createPublicClient env := by
  intro n
  induction n with
  | zero =>
    intro cs _ c hc
    simp [iterateGetPublicClient] at hc
  | succ m ih =>
    intro cs hcs c hc
    rcases hcs with rfl | rfl <;>
      simp only [iterateGetPublicClient, getPublicClient, List.mem_cons] at hc <;>
      rcases hc with rfl | hmem
    · rfl
    · exact ih _ (Or.inr rfl) c hmem
    · rfl
    · exact ih _ (Or.inr rfl) c hmem

/-- C9: the read client is a per-process singleton.  The first provider
call constructs the client from the resolved RPC endpoint and chain
identity and caches it, every later call returns that same instance (any
number of calls only ever yields the one client), and each read-only
handler obtains its client through the provider — its resulting cache
state is exactly the provider's. -/
theorem claim_C9_read_client_singleton (env : Env) (chain : Chain)
    (cs : ClientState) :
    (getPublicClient env none).1 = { url := rpcUrl env, chain := testChain env } ∧
    (getPublicClient env none).2 = some (createPublicClient env) ∧
    (∀ c : PublicClient, getPublicClient env (some c) = (c, some c)) ∧
    (∀ n : Nat, ∀ c ∈ (iterateGetPublicClient env n none).1,
      c = createPublicClient env) ∧
    (∀ a s : String,
      (handleGetEthBalance env chain cs (some [("address", .str a)])).2.1 =
          (getPublicClient env cs).2 ∧
      (handleGetErc20Balance env chain cs
          (some [("tokenAddress", .str a), ("accountAddress", .str s)])).2.1 =
        (getPublicClient env cs).2 ∧
      (handleErc20Allowance env chain cs
          (some [("tokenAddress", .str a), ("owner", .str s), ("spender", .str s)])).2.1 =
        (getPublicClient env cs).2 ∧
      (handleCallContract env chain cs
          (some [("address", .str a), ("abi", Json.arr []),
            ("functionName", .str s), ("args", .arr [])])).2.1 =
        (getPublicClient env cs).2) := by
  refine ⟨rfl, rfl, fun c => rfl, fun n => iterateGetPublicClient_all env n none (Or.inl rfl), ?_⟩
  intro a s
  refine ⟨rfl, rfl, rfl, ?_⟩
  show (match chain.contractReadFn a (some (Json.arr [])) s [] with
    | .error m => ((Except.error (Err.chainRpc m) : Except Err ToolResponse),
        (getPublicClient env cs).2, [ChainEvent.contractRead a s])
    | .ok result => (.ok { content := [.text (jsonStringify result)] },
        (getPublicClient env cs).2, [ChainEvent.contractRead a s])).2.1 =
    (getPublicClient env cs).2
  cases chain.contractReadFn a (some (Json.arr [])) s [] <;> rfl

/-- Closed instance of C9: two successive provider calls from a fresh
process state yield the same single client. -/
theorem claim_C9_read_client_singleton_witness :
    (getPublicClient envNoKey none).1 = { url := rpcUrl envNoKey, chain := testChain envNoKey } ∧
    getPublicClient envNoKey (some (createPublicClient envNoKey)) =
      (createPublicClient envNoKey, some (createPublicClient envNoKey)) :=
  ⟨(claim_C9_read_client_singleton envNoKey chainZero none).1,
   (claim_C9_read_client_singleton envNoKey chainZero none).2.2.1 (createPublicClient envNoKey)⟩

/-! ## Claim C10 — undeclared argument keys are ignored -/

theorem lookupField_cons_ne (k : String) (v : Json) (o : RawObj) (key : String)
    (h : k ≠ key) : lookupField ((k, v) :: o) key = lookupField o key := by
  have hb : ((k, v).1 == key) = false := by simpa using h
  simp [lookupField, List.find?_cons, hb]

theorem requireString_cons_ne (k : String) (v : Json) (o : RawObj) (key : String)
    (h : k ≠ key) : requireString ((k, v) :: o) key = requireString o key := by
  simp [requireString, lookupField_cons_ne k v o key h]

theorem parseUnitField_cons_ne (k : String) (v : Json) (o : RawObj)
    (h : k ≠ "unit") : parseUnitField ((k, v) :: o) = parseUnitField o := by
  simp [parseUnitField, lookupField_cons_ne k v o "unit" h]

theorem parseAbiField_cons_ne (k : String) (v : Json) (o : RawObj)
    (h : k ≠ "abi") : parseAbiField ((k, v) :: o) = parseAbiField o := by
  simp [parseAbiField, lookupField_cons_ne k v o "abi" h]

theorem parseArgsField_cons_ne (k : String) (v : Json) (o : RawObj)
    (h : k ≠ "args") : parseArgsField ((k, v) :: o) = parseArgsField o := by
  simp [parseArgsField, lookupField_cons_ne k v o "args" h]

/-- C10: every schema silently discards argument keys it does not declare:
adding a binding for an undeclared key leaves the validation outcome (and
hence the whole call) unchanged, rather than failing; in particular a
well-formed argument object with an extra key still validates. -/
theorem claim_C10_extra_keys_ignored (k : String) (v : Json) (o : RawObj) :
    (k ∉ ["address", "unit"] →
      GetEthBalanceArgsSchema_safeParse (some ((k, v) :: o)) =
        GetEthBalanceArgsSchema_safeParse (some o)) ∧
    (k ∉ ["tokenAddress", "accountAddress"] →
      GetErc20BalanceArgsSchema_safeParse (some ((k, v) :: o)) =
        GetErc20BalanceArgsSchema_safeParse (some o)) ∧
    (k ∉ ["to", "amountEth"] →
      SendEthArgsSchema_safeParse (some ((k, v) :: o)) =
        SendEthArgsSchema_safeParse (some o)) ∧
    (k ∉ ["address", "abi", "functionName", "args"] →
      CallContractArgsSchema_safeParse (some ((k, v) :: o)) =
        CallContractArgsSchema_safeParse (some o)) ∧
    (k ∉ ["tokenAddress", "to", "amount"] →
      Erc20TransferArgsSchema_safeParse (some ((k, v) :: o)) =
        Erc20TransferArgsSchema_safeParse (some o)) ∧
    (k ∉ ["tokenAddress", "spender", "amount"] →
      Erc20ApproveArgsSchema_safeParse (some ((k, v) :: o)) =
        Erc20ApproveArgsSchema_safeParse (some o)) ∧
    (k ∉ ["tokenAddress", "owner", "spender"] →
      Erc20AllowanceArgsSchema_safeParse (some ((k, v) :: o)) =
        Erc20AllowanceArgsSchema_safeParse (some o)) ∧
    GetEthBalanceArgsSchema_safeParse
        (some [("address", .str "0x0"), ("bogus", .num 1)]) =
      .ok { address := "0x0", unit := .ether } := by
  refine ⟨?_, ?_, ?_, ?_, ?_, ?_, ?_, rfl⟩ <;>
    intro hk <;>
    simp only [List.mem_cons, List.not_mem_nil, or_false, not_or] at hk
  · obtain ⟨h1, h2⟩ := hk
    simp only [GetEthBalanceArgsSchema_safeParse,
      requireString_cons_ne k v o _ h1, parseUnitField_cons_ne k v o h2]
  · obtain ⟨h1, h2⟩ := hk
    simp only [GetErc20BalanceArgsSchema_safeParse,
      requireString_cons_ne k v o _ h1, requireString_cons_ne k v o _ h2]
  · obtain ⟨h1, h2⟩ := hk
    simp only [SendEthArgsSchema_safeParse,
      requireString_cons_ne k v o _ h1, requireString_cons_ne k v o _ h2]
  · obtain ⟨h1, h2, h3, h4⟩ := hk
    simp only [CallContractArgsSchema_safeParse,
      requireString_cons_ne k v o _ h1, requireString_cons_ne k v o _ h3,
      parseAbiField_cons_ne k v o h2, parseArgsField_cons_ne k v o h4]
  · obtain ⟨h1, h2, h3⟩ := hk
    simp only [Erc20TransferArgsSchema_safeParse,
      requireString_cons_ne k v o _ h1, requireString_cons_ne k v o _ h2,
      requireString_cons_ne k v o _ h3]
  · obtain ⟨h1, h2, h3⟩ := hk
    simp only [Erc20ApproveArgsSchema_safeParse,
      requireString_cons_ne k v o _ h1, requireString_cons_ne k v o _ h2,
      requireString_cons_ne k v o _ h3]
  · obtain ⟨h1, h2, h3⟩ := hk
    simp only [Erc20AllowanceArgsSchema_safeParse,
      requireString_cons_ne k v o _ h1, requireString_cons_ne k v o _ h2,
      requireString_cons_ne k v o _ h3]

/-- Closed instance of C10: an extra `bogus` key neither fails validation
nor changes the parsed arguments. -/
theorem claim_C10_extra_keys_ignored_witness :
    GetEthBalanceArgsSchema_safeParse
        (some (("bogus", Json.num 1) :: [("address", .str "0x0")])) =
      GetEthBalanceArgsSchema_safeParse (some [("address", .str "0x0")]) :=
  (claim_C10_extra_keys_ignored "bogus" (Json.num 1) [("address", .str "0x0")]).1
    (by decide)

/-! ## Claim C1 — write tools without a signing key (corrected) -/

/-- Is a handler failure specifically a `MissingCredentialError`? -/
def Err.isMissingCredential : Err → Bool
  | .missingCredential _ => true
  | _ => false

/-- C1 counterexample: with no signing key configured, `send_eth` does fail
before any chain interaction — but the thrown error is the key-parsing
fault (`getPrivateKey` returns `undefined`, which flows straight into
`privateKeyToAccount`), not a `MissingCredentialError`: no such error
class exists anywhere in the code. -/
theorem claim_C1_counterexample :
    handleSendEth envNoKey chainZero none
        (some [("to", .str "0x1111111111111111111111111111111111111111"),
          ("amountEth", .str "1")]) =
      (.error (.invalidKey "Cannot read properties of undefined"), none, []) ∧
    (Err.invalidKey "Cannot read properties of undefined").isMissingCredential = false :=
  ⟨rfl, rfl⟩

/-- C1 amended: a write tool (send_eth, erc20_transfer, erc20_approve)
invoked with well-formed arguments and no signing key configured fails —
with the invalid-key fault raised by private-key parsing on the undefined
key, not with a distinct `MissingCredentialError` — and no chain RPC
interaction (read or broadcast) is attempted before the failure. -/
theorem claim_C1_amended (env : Env) (chain : Chain) (cs : ClientState)
    (hkey : getPrivateKey env = none) (toA amt token spender : String) :
    handleSendEth env chain cs
        (some [("to", .str toA), ("amountEth", .str amt)]) =
      (.error (.invalidKey "Cannot read properties of undefined"), cs, []) ∧
    handleErc20Transfer env chain cs
        (some [("tokenAddress", .str token), ("to", .str toA), ("amount", .str amt)]) =
      (.error (.invalidKey "Cannot read properties of undefined"), cs, []) ∧
    handleErc20Approve env chain cs
        (some [("tokenAddress", .str token), ("spender", .str spender), ("amount", .str amt)]) =
      (.error (.invalidKey "Cannot read properties of undefined"), cs, []) := by
  refine ⟨?_, ?_, ?_⟩ <;>
    simp only [handleSendEth, handleErc20Transfer, handleErc20Approve, hkey] <;>
    rfl

/-- Closed instance of the amended C1. -/
theorem claim_C1_amended_witness :
    handleErc20Approve envNoKey chainZero none
        (some [("tokenAddress", .str "0xT"), ("spender", .str "0xS"),
          ("amount", .str "1")]) =
      (.error (.invalidKey "Cannot read properties of undefined"), none, []) :=
  (claim_C1_amended envNoKey chainZero none rfl "0xR" "1" "0xT" "0xS").2.2

/-! ## Claim C2 — malformed address strings pass validation (corrected) -/

/-- C2 counterexample: address fields are declared as bare strings; the
malformed address `"not-an-address"` (no `0x` prefix, wrong length)
passes validation — no `ValidationError` — and the handler issues the
balance RPC for it. -/
theorem claim_C2_counterexample :
    GetEthBalanceArgsSchema_safeParse (some [("address", .str "not-an-address")]) =
      .ok { address := "not-an-address", unit := .ether } ∧
    (handleGetEthBalance envNoKey chainZero none
        (some [("address", .str "not-an-address")])).2.2 =
      [.getBalance "not-an-address"] :=
  ⟨rfl, rfl⟩

/-- C2 amended: address-shaped fields are validated only as being strings.
A missing or non-string address field fails with `ValidationError` naming
the violated constraint and no chain RPC call is made; but any string —
well-formed hex address or not — passes validation and the chain RPC
call is attempted. -/
theorem claim_C2_amended (env : Env) (chain : Chain) (cs : ClientState) :
    (∀ s : String,
      GetEthBalanceArgsSchema_safeParse (some [("address", .str s)]) =
        .ok { address := s, unit := .ether } ∧
      (handleGetEthBalance env chain cs (some [("address", .str s)])).2.2 =
        [.getBalance s]) ∧
    (∀ s t : String,
      GetErc20BalanceArgsSchema_safeParse
          (some [("tokenAddress", .str s), ("accountAddress", .str t)]) =
        .ok { tokenAddress := s, accountAddress := t } ∧
      (handleGetErc20Balance env chain cs
          (some [("tokenAddress", .str s), ("accountAddress", .str t)])).2.2 =
        [.balanceOf s t, .readDecimals s]) ∧
    (∀ n : Int, handleGetEthBalance env chain cs (some [("address", .num n)]) =
      (.error (.validation ["address: Expected string"]), cs, [])) ∧
    handleGetEthBalance env chain cs (some []) =
      (.error (.validation ["address: Required"]), cs, []) ∧
    handleGetEthBalance env chain cs none =
      (.error (.validation ["Expected object, received undefined"]), cs, []) :=
  ⟨fun _ => ⟨rfl, rfl⟩, fun _ _ => ⟨rfl, rfl⟩, fun _ => rfl, rfl, rfl⟩

/-! ## Claim C5 — exact balance formatting -/

/-- The fixture node reporting a balance of 10000 × 10^18 wei. -/
def chainTenThousandEth : Chain :=
  { chainZero with balance := fun _ => 10000 * 10 ^ 18 }

/-- C5: `get_eth_balance` formats the reported balance B exactly, with no
precision loss: under `wei` the response text is the decimal string of B
(denoting exactly B); under `gwei` and `ether` the text denotes exactly
B/10^9 and B/10^18; and for a node reporting 10000 × 10^18 wei the
`ether` response text is `"10000"`. -/
theorem claim_C5_get_eth_balance_formatting (env : Env) (chain : Chain)
    (cs : ClientState) (a : String) :
    ((handleGetEthBalance env chain cs
        (some [("address", .str a), ("unit", .str "wei")])).1 =
      .ok { content := [.text (natToDecString (chain.balance a))] } ∧
     decValue (natToDecString (chain.balance a)) = some ((chain.balance a : ℚ))) ∧
    (∃ t : String,
      (handleGetEthBalance env chain cs
          (some [("address", .str a), ("unit", .str "gwei")])).1 =
        .ok { content := [.text t] } ∧
      decValue t = some ((chain.balance a : ℚ) / 10 ^ 9)) ∧
    (∃ t : String,
      (handleGetEthBalance env chain cs
          (some [("address", .str a), ("unit", .str "ether")])).1 =
        .ok { content := [.text t] } ∧
      decValue t = some ((chain.balance a : ℚ) / 10 ^ 18)) ∧
    (handleGetEthBalance env chainTenThousandEth cs
        (some [("address", .str a), ("unit", .str "ether")])).1 =
      .ok { content := [.text "10000"] } := by
  refine ⟨⟨rfl, decValue_natToDecString _⟩, ?_, ?_, ?_⟩
  · refine ⟨formatUnits ((chain.balance a : Nat) : Int) 9, rfl, ?_⟩
    rw [decValue_formatUnits]
    norm_num
  · refine ⟨formatEther ((chain.balance a : Nat) : Int), rfl, ?_⟩
    rw [show formatEther ((chain.balance a : Nat) : Int) =
      formatUnits ((chain.balance a : Nat) : Int) 18 from rfl, decValue_formatUnits]
    norm_num
  · have hfmt : formatEther ((10000 * 10 ^ 18 : Nat) : Int) = "10000" := by decide
    have hshow : (handleGetEthBalance env chainTenThousandEth cs
        (some [("address", .str a), ("unit", .str "ether")])).1 =
        Except.ok
          { content :=
              [ContentItem.text (formatEther ((chainTenThousandEth.balance a : Nat) : Int))]
            isError := none } := rfl
    rw [hshow, show chainTenThousandEth.balance a = 10000 * 10 ^ 18 from rfl, hfmt]

/-! ## Claim C6 — amount conversion round-trip -/

/-- C6: for every decimal amount numeral A (optional sign, integer digits
`i`, fraction digits `f0`) with at most D fraction digits, the forward
conversion to raw units is exact — `parseUnits A D` returns the integer
`r` with `r = value(A) × 10^D`, i.e. `round(value × 10^D)` computed
without any rounding actually occurring — and formatting `r` back with D
decimals yields a numeral denoting a value equal to A. -/
theorem claim_C6_amount_roundtrip (A : String) (D : Nat) (neg : Bool)
    (i f0 : List Nat) (hshape : parseDecShape A.data = some (neg, i, f0))
    (hlen : f0.length ≤ D) :
    ∃ (r : Int) (vA : ℚ), decValue A = some vA ∧ parseUnits A D = some r ∧
      (r : ℚ) = vA * 10 ^ D ∧ decValue (formatUnits r D) = some vA :=
  parseUnits_formatUnits_roundtrip A D neg i f0 hshape hlen

/-- Closed instance of C6 at A = "-1.50", D = 6. -/
theorem claim_C6_amount_roundtrip_witness :
    (parseDecShape "-1.50".data = some (true, [1], [5, 0]) ∧
      ([5, 0] : List Nat).length ≤ 6) ∧
    (∃ (r : Int) (vA : ℚ), decValue "-1.50" = some vA ∧
      parseUnits "-1.50" 6 = some r ∧ (r : ℚ) = vA * 10 ^ 6 ∧
      decValue (formatUnits r 6) = some vA) :=
  ⟨⟨by decide, by decide⟩,
   claim_C6_amount_roundtrip "-1.50" 6 true [1] [5, 0] (by decide) (by decide)⟩

/-! ## Claim C7 — erc20 write flow -/

theorem parseUnits_zero (d : Nat) : parseUnits "0" d = some 0 := by
  have hshape : parseDecShape "0".data = some (false, [0], []) := by decide
  simp only [parseUnits, hshape, Option.map_some']
  by_cases hd : d = 0
  · subst hd
    norm_num [show dropTrailingZeros ([] : List Nat) = [] from rfl,
      roundsUpHalf_nil, valMSD]
  · rw [if_neg hd,
      if_neg (by simp [show dropTrailingZeros ([] : List Nat) = [] from rfl])]
    simp [show dropTrailingZeros ([] : List Nat) = [] from rfl,
      valMSD_replicate_zero, show valMSD [0] = 0 from rfl]

/-- C7: with a configured well-formed key, `erc20_transfer` and
`erc20_approve` first read `decimals()` from the token contract, convert
the human-readable amount to raw units with exactly that many fraction
digits, then broadcast the `transfer`/`approve` invocation — the trace is
precisely the decimals read followed by the broadcast — and answer with
the broadcast transaction hash; moreover amount "0" converts to raw 0
for every decimals value. -/
theorem claim_C7_erc20_write_flow (env : Env) (chain : Chain) (cs : ClientState)
    (k token toA spender amount : String)
    (hkey : getPrivateKey env = some k) (hwf : isWellFormedPrivateKey k = true)
    (amountRaw : Int)
    (hamt : parseUnits amount (chain.decimalsOf token) = some amountRaw) :
    (handleErc20Transfer env chain cs
        (some [("tokenAddress", .str token), ("to", .str toA), ("amount", .str amount)]) =
      (.ok { content := [.text ("Transfer submitted. Tx hash: " ++
          chain.broadcastTx (Tx.writeErc20 k token "transfer" toA amountRaw))] },
        (getPublicClient env cs).2,
        [.readDecimals token,
         .broadcast (Tx.writeErc20 k token "transfer" toA amountRaw)])) ∧
    (handleErc20Approve env chain cs
        (some [("tokenAddress", .str token), ("spender", .str spender), ("amount", .str amount)]) =
      (.ok { content := [.text ("Approve transaction broadcast. Tx hash: " ++
          chain.broadcastTx (Tx.writeErc20 k token "approve" spender amountRaw))] },
        (getPublicClient env cs).2,
        [.readDecimals token,
         .broadcast (Tx.writeErc20 k token "approve" spender amountRaw)])) ∧
    (∀ d : Nat, parseUnits "0" d = some 0) := by
  have hwallet : getWalletClient env (some k) =
      .ok { account := { privateKey := k }, url := rpcUrl env, chain := testChain env } := by
    simp [getWalletClient, privateKeyToAccount, hwf, Except.map]
  refine ⟨?_, ?_, fun d => parseUnits_zero d⟩
  · have hparse : Erc20TransferArgsSchema_safeParse
        (some [("tokenAddress", .str token), ("to", .str toA), ("amount", .str amount)]) =
        .ok { tokenAddress := token, toAddr := toA, amount := amount } := rfl
    simp only [handleErc20Transfer, hparse, hkey, hwallet, hamt]
  · have hparse : Erc20ApproveArgsSchema_safeParse
        (some [("tokenAddress", .str token), ("spender", .str spender), ("amount", .str amount)]) =
        .ok { tokenAddress := token, spender := spender, amount := amount } := rfl
    simp only [handleErc20Approve, hparse, hkey, hwallet, hamt]

/-- Closed instance of C7: transfer of "1.5" on a 6-decimal token
broadcasts raw amount 1500000, and "0" converts to raw 0 at 9 decimals. -/
theorem claim_C7_erc20_write_flow_witness :
    (handleErc20Transfer envWithKey chainZero none
        (some [("tokenAddress", .str "0xT"), ("to", .str "0xR"), ("amount", .str "1.5")]) =
      (.ok { content := [.text ("Transfer submitted. Tx hash: " ++
          chainZero.broadcastTx (Tx.writeErc20 testKey "0xT" "transfer" "0xR" 1500000))] },
        (getPublicClient envWithKey none).2,
        [.readDecimals "0xT",
         .broadcast (Tx.writeErc20 testKey "0xT" "transfer" "0xR" 1500000)])) ∧
    parseUnits "0" 9 = some 0 := by
  have h := claim_C7_erc20_write_flow envWithKey chainZero none testKey
    "0xT" "0xR" "0xS" "1.5" rfl (by decide) 1500000 (by decide)
  exact ⟨h.1, h.2.2 9⟩

/-! ## Claim C8 — ABI string/structured equivalence -/

/-- Is a JSON value itself a string? -/
def Json.isString : Json → Bool
  | .str _ => true
  | _ => false

/-- C8: `call_contract` produces an identical result whether the ABI is
supplied as a JSON string or as the structured value that string parses
to.  (The parsed value must be structured — not itself a JSON string — as
a string-typed value would be treated as another JSON source and parsed
again, by the same `typeof abi === "string"` test.) -/
theorem claim_C8_abi_equiv (env : Env) (chain : Chain) (cs : ClientState)
    (addr fn s : String) (v : Json) (args : List Json)
    (hparse : jsonParse s = some v) (hstruct : v.isString = false) :
    handleCallContract env chain cs
        (some [("address", .str addr), ("abi", .str s),
          ("functionName", .str fn), ("args", .arr args)]) =
      handleCallContract env chain cs
        (some [("address", .str addr), ("abi", v),
          ("functionName", .str fn), ("args", .arr args)]) := by
  have hparse1 : CallContractArgsSchema_safeParse
      (some [("address", .str addr), ("abi", .str s),
        ("functionName", .str fn), ("args", .arr args)]) =
      .ok { address := addr, abi := .str s, functionName := fn, args := args } := rfl
  have hparse2 : CallContractArgsSchema_safeParse
      (some [("address", .str addr), ("abi", v),
        ("functionName", .str fn), ("args", .arr args)]) =
      .ok { address := addr, abi := .val v, functionName := fn, args := args } := by
    cases v with
    | str s2 => simp [Json.isString] at hstruct
    | null => rfl
    | bool b => rfl
    | num n => rfl
    | arr xs => rfl
    | obj kvs => rfl
    | bigint n => rfl
  simp only [handleCallContract, hparse1, hparse2, hparse]

/-- Closed instance of C8 at the empty-array ABI. -/
theorem claim_C8_abi_equiv_witness :
    handleCallContract envNoKey chainZero none
        (some [("address", .str "0xC"), ("abi", .str "[]"),
          ("functionName", .str "decimals"), ("args", .arr [])]) =
      handleCallContract envNoKey chainZero none
        (some [("address", .str "0xC"), ("abi", Json.arr []),
          ("functionName", .str "decimals"), ("args", .arr [])]) :=
  claim_C8_abi_equiv envNoKey chainZero none "0xC" "decimals" "[]"
    (Json.arr []) [] rfl rfl
